import Mathlib

/-!
Shallow embedding of `KEGGutils/KEGGapi.py`: the cache-aware download
layer (`download_textfile`, `download_json`, `download_pic`), the
response parser (`process_request_text`), and the public API
operations (`keggapi_list`, `keggapi_find`, `keggapi_get`,
`keggapi_link`) together with `get_organism_codes`.

The file-system cache is an association list from filename to content;
the network and the image decoder are an explicit environment of pure
functions; every operation returns its result together with the new
store and the ordered trace of I/O events it performed.
-/

set_option autoImplicit false
set_option linter.unusedVariables false

deriving instance DecidableEq for Except

/-- One I/O action performed by an operation. -/
inductive Event where
  | netFetch (url : String)
  | fileRead (name : String)
  | fileWrite (name : String)
deriving DecidableEq, Repr

/-- The Python exceptions that the functions in `KEGGapi.py` can raise:
`KEGGKeyError` (carrying the offending key), `KEGGOnlineError`,
`KEGGInvalidFileContent`, `AssertionError`, `NameError` on an unbound
local variable, `ValueError` from tuple unpacking, and `TypeError`
from concatenating `None` with a string. -/
inductive KErr where
  | keyError (key : String)
  | onlineError (url : String)
  | invalidContent (filename : String) (text : String)
  | assertionError (msg : String)
  | nameError (var : String)
  | valueError
  | typeError
deriving DecidableEq, Repr

/-- The on-disk cache directory: filename to file content, most recent
write first. -/
abbrev Store := List (String × String)

def Store.get : Store → String → Option String
  | [], _ => none
  | (k, v) :: rest, f => if k = f then some v else Store.get rest f

def Store.set (s : Store) (f v : String) : Store :=
  (f, v) :: s

def Store.del (s : Store) (f : String) : Store :=
  s.filter (fun kv => kv.1 != f)

/-- The ambient world: `net` models `requests.get` (`none` is a
not-ok HTTP response), `netBytes` models the raw streamed body used by
`request_image` (which never checks the status), `sniff` models
`imghdr.what` on file content, and `imread` models `mpimg.imread`
decoding file content (`none` is a raised exception). -/
structure Env where
  net : String → Option String
  netBytes : String → String
  sniff : String → Option String
  imread : String → Option String

-- ===========================================================================
-- Python string helpers, over `List Char`
-- ===========================================================================

/-- The characters `str.strip()` removes: the full Python whitespace
set (ASCII whitespace 0x09-0x0D, 0x1C-0x1F, space, NEL, NBSP, and the
Unicode space separators). -/
def isSpaceChar (c : Char) : Bool :=
  (0x09 ≤ c.val && c.val ≤ 0x0d) || (0x1c ≤ c.val && c.val ≤ 0x1f) ||
  c.val = 0x20 || c.val = 0x85 || c.val = 0xa0 || c.val = 0x1680 ||
  (0x2000 ≤ c.val && c.val ≤ 0x200a) ||
  c.val = 0x2028 || c.val = 0x2029 || c.val = 0x202f || c.val = 0x205f || c.val = 0x3000

/-- The line boundaries of `str.splitlines()`: LF, VT, FF, CR, FS,
GS, RS, NEL, LINE SEPARATOR and PARAGRAPH SEPARATOR (CR LF is one
boundary, handled in `splitLinesChars`). -/
def isLineBreak (c : Char) : Bool :=
  c.val = 0x0a || c.val = 0x0b || c.val = 0x0c || c.val = 0x0d ||
  c.val = 0x1c || c.val = 0x1d || c.val = 0x1e || c.val = 0x85 ||
  c.val = 0x2028 || c.val = 0x2029

/-- `str.split(sep)` for a one-character separator: never collapses
adjacent separators and never returns an empty list. -/
def splitOnChar (c : Char) : List Char → List (List Char)
  | [] => [[]]
  | x :: xs =>
    if x = c then [] :: splitOnChar c xs
    else
      match splitOnChar c xs with
      | r :: rs => (x :: r) :: rs
      | [] => [[x]]

/-- `str.strip()`: drop whitespace from both ends. -/
def stripList (l : List Char) : List Char :=
  ((l.dropWhile isSpaceChar).reverse.dropWhile isSpaceChar).reverse

/-- `str.splitlines()` on a char list: break at every `isLineBreak`
character, treating CR LF as a single boundary; a trailing boundary
produces no empty final line. -/
def splitLinesChars : List Char → List (List Char)
  | [] => []
  | [c] => if isLineBreak c then [[]] else [[c]]
  | c :: c2 :: cs =>
    if isLineBreak c then
      if c = '\r' ∧ c2 = '\n' then [] :: splitLinesChars cs
      else [] :: splitLinesChars (c2 :: cs)
    else
      match splitLinesChars (c2 :: cs) with
      | [] => [[c]]
      | l :: ls => (c :: l) :: ls

/-- `str.splitlines()`. -/
def pySplitlines (s : String) : List String :=
  (splitLinesChars s.data).map (fun cs => (⟨cs⟩ : String))

def joinNL : List String → String
  | [] => ""
  | [s] => s
  | s :: rest => s ++ "\n" ++ joinNL rest

-- ===========================================================================
-- Response parsing (`process_request_text`, organism-list parsing)
-- ===========================================================================

/-- `entry, description = line.strip().split("\t")`: exactly two
tab-separated fields, else a `ValueError`. -/
def split2 (line : String) : Option (String × String) :=
  match splitOnChar '\t' (stripList line.data) with
  | [a, b] => some ((⟨a⟩ : String), (⟨b⟩ : String))
  | _ => none

def collectPairs : List String → Option (List String × List String)
  | [] => some ([], [])
  | line :: rest =>
    match split2 line, collectPairs rest with
    | some (a, b), some (items, descrs) => some (a :: items, b :: descrs)
    | _, _ => none

/-- `process_request_text(fulltext, want_descr)`: item list, or item
and description lists when descriptions are wanted; a line that does
not split into exactly two fields raises `ValueError`. -/
def process_request_text (fulltext : String) (want_descr : Bool) :
    Except KErr (List String ⊕ List String × List String) :=
  match collectPairs (pySplitlines fulltext) with
  | none => .error .valueError
  | some (items, descrs) =>
    if want_descr then .ok (.inr (items, descrs)) else .ok (.inl items)

/-- One line of the organism listing: exactly four tab-separated
fields, of which the second is the organism code. -/
def parse_org_line (line : String) : Option String :=
  match splitOnChar '\t' (stripList line.data) with
  | [_, code, _, _] => some (⟨code⟩ : String)
  | _ => none

def parse_org : List String → Option (List String)
  | [] => some []
  | line :: rest =>
    match parse_org_line line, parse_org rest with
    | some c, some cs => some (c :: cs)
    | _, _ => none

-- ===========================================================================
-- Cache-aware download layer
-- ===========================================================================

/-- `download_textfile(url, filename, force_download, verbose)`:
fetch (writing the cache) when the file is absent or the refresh is
forced, else read the cache; either way raise
`KEGGInvalidFileContent` when the resulting text is exactly a lone
newline. -/
def download_textfile (env : Env) (store : Store) (url filename : String)
    (force_download verbose : Bool) :
    Except KErr String × Store × List Event :=
  if (store.get filename).isNone || force_download then
    match env.net url with
    | none => (.error (.onlineError url), store, [.netFetch url])
    | some text =>
      ((if text = "\n" then .error (.invalidContent filename text) else .ok text),
       store.set filename text, [.netFetch url, .fileWrite filename])
  else
    let text := (store.get filename).getD ""
    ((if text = "\n" then .error (.invalidContent filename text) else .ok text),
     store, [.fileRead filename])

/-- `download_json(url, filename, force_download, verbose)`.  The
fresh-download branch of the source assigns `json_file` and then
executes `return data`, a variable bound only in the cached branch, so
a fresh download ends in a `NameError` after writing the cache. -/
def download_json (env : Env) (store : Store) (url filename : String)
    (force_download : Bool) :
    Except KErr String × Store × List Event :=
  if (store.get filename).isNone || force_download then
    match env.net url with
    | none => (.error (.onlineError url), store, [.netFetch url])
    | some body =>
      (.error (.nameError "data"), store.set filename body,
       [.netFetch url, .fileWrite filename])
  else
    (.ok ((store.get filename).getD ""), store, [.fileRead filename])

/-- `mpimg.imread` on a cache path: `none` both when the file is
absent and when decoding raises. -/
def try_imread (env : Env) (store : Store) (path : String) : Option String :=
  match store.get path with
  | none => none
  | some content => env.imread content

/-- `download_pic(url, filename, force_download, verbose)`: when no
extension variant is cached (or the refresh is forced) the bytes are
fetched into `tmp_img`, the format is sniffed, an
`AssertionError` is raised unless it is gif or png, and the temp file
is renamed to `filename.<fmt>`; the fresh branch returns the raw
response stream.  Otherwise the `.gif` then `.png` variants are read
with every exception swallowed by a bare `except`, so when neither
read succeeds the final `return img` raises `NameError`. -/
def download_pic (env : Env) (store : Store) (url filename : String)
    (force_download : Bool) :
    Except KErr String × Store × List Event :=
  let gifName := filename ++ ".gif"
  let pngName := filename ++ ".png"
  if ((store.get gifName).isNone && (store.get pngName).isNone) || force_download then
    let bytes := env.netBytes url
    let store1 := store.set "tmp_img" bytes
    match env.sniff bytes with
    | some "gif" =>
      (.ok bytes, (store1.del "tmp_img").set (filename ++ ".gif") bytes,
       [.netFetch url, .fileWrite "tmp_img", .fileRead "tmp_img",
        .fileWrite (filename ++ ".gif")])
    | some "png" =>
      (.ok bytes, (store1.del "tmp_img").set (filename ++ ".png") bytes,
       [.netFetch url, .fileWrite "tmp_img", .fileRead "tmp_img",
        .fileWrite (filename ++ ".png")])
    | _ =>
      (.error (.assertionError "Image format is wrong"), store1,
       [.netFetch url, .fileWrite "tmp_img", .fileRead "tmp_img"])
  else
    let evs := (if (store.get gifName).isSome then [Event.fileRead gifName] else [])
            ++ (if (store.get pngName).isSome then [Event.fileRead pngName] else [])
    match try_imread env store pngName with
    | some img => (.ok img, store, evs)
    | none =>
      match try_imread env store gifName with
      | some img => (.ok img, store, evs)
      | none => (.error (.nameError "img"), store, evs)

-- ===========================================================================
-- Vocabularies and URL building
-- ===========================================================================

def db_categories : List String :=
  ["pathway", "brite", "module", "ko", "genome", "vg", "ag", "compound",
   "glycan", "reaction", "rclass", "enzyme", "network", "variant",
   "disease", "drug", "dgroup", "environ", "atc", "jtc", "ndc", "yj",
   "pubmed", "hsa"]

def find_options : List String :=
  ["formula", "exact_mass", "mol_weight"]

def get_options : List String :=
  ["aaseq", "ntseq", "mol", "kcf", "image", "conf", "kgml", "json"]

/-- Modelled from the spec: `push_backslash` is imported from the
repository's `KEGGhelpers` module, whose source is not present here.
Per the spec's URL-construction rule, a present optional argument
contributes one slash-prefixed path segment and an absent argument
contributes no path segment, while the get operation's
absence-of-option test (`option == None`) still sees the absent
value, so absence is preserved in the first component. -/
def push_backslash : Option String → Option String × String
  | none => (none, "")
  | some s => (some s, "/" ++ s)

/-- Does `option` occur in the organism-code list?  (`None` never
does.) -/
def optMem (o : Option String) (l : List String) : Bool :=
  match o with
  | some s => decide (s ∈ l)
  | none => false

-- ===========================================================================
-- KEGG API operations
-- ===========================================================================

/-- `get_organism_codes()`: download the organism listing (never
forced, quiet) and keep the second field of each four-field line. -/
def get_organism_codes (env : Env) (store : Store) :
    Except KErr (List String) × Store × List Event :=
  match download_textfile env store "http://rest.kegg.jp/list/organism"
      "organism_code_list" false false with
  | (.error e, s, ev) => (.error e, s, ev)
  | (.ok text, s, ev) =>
    match parse_org (pySplitlines text) with
    | none => (.error .valueError, s, ev)
    | some codes => (.ok codes, s, ev)

/-- The shared tail of the list and find operations: download the
text (cache-aware), split it into items and optional descriptions,
and check the equal-length assertion when descriptions were asked
for. -/
def fetch_and_parse (env : Env) (store : Store) (url filename : String)
    (want_descriptions verbose force_download : Bool) (assert_msg : String) :
    Except KErr (List String ⊕ List String × List String) × Store × List Event :=
  match download_textfile env store url filename force_download verbose with
  | (.error e, s, ev) => (.error e, s, ev)
  | (.ok text, s, ev) =>
    match process_request_text text want_descriptions with
    | .error e => (.error e, s, ev)
    | .ok (.inl items) => (.ok (.inl items), s, ev)
    | .ok (.inr (items, descrs)) =>
      if items.length = descrs.length then
        (.ok (.inr (items, descrs)), s, ev)
      else
        (.error (.assertionError assert_msg), s, ev)

/-- The part of `keggapi_list` that runs after `get_organism_codes`. -/
def keggapi_list_core (env : Env) (s1 : Store) (org_codes : List String)
    (database : String) (option : Option String)
    (want_descriptions force_download : Bool) :
    Except KErr (List String ⊕ List String × List String) × Store × List Event :=
  if database ∉ db_categories then
    (.error (.keyError database), s1, [])
  else if option = some "xl" ∧ database ≠ "brite" then
    (.error (.keyError database), s1, [])
  else if optMem option org_codes = true ∧ database ≠ "pathway" ∧ database ≠ "module" then
    (.error (.keyError database), s1, [])
  else
    let p := push_backslash option
    let url := "http://rest.kegg.jp/list/" ++ database ++ p.2
    match p.1 with
    | none => (.error .typeError, s1, [])
    | some o =>
      fetch_and_parse env s1 url (database ++ "_" ++ o ++ "_list")
        want_descriptions true force_download "different length"

/-- `keggapi_list(database, option, want_descriptions,
force_download)`: fetches the organism-code list first, then
validates, then downloads and parses. -/
def keggapi_list (env : Env) (store : Store) (database : String)
    (option : Option String) (want_descriptions force_download : Bool) :
    Except KErr (List String ⊕ List String × List String) × Store × List Event :=
  match get_organism_codes env store with
  | (.error e, s1, ev1) => (.error e, s1, ev1)
  | (.ok org_codes, s1, ev1) =>
    match keggapi_list_core env s1 org_codes database option
        want_descriptions force_download with
    | (r, s2, ev2) => (r, s2, ev1 ++ ev2)

/-- `keggapi_find(database, query, option, want_descriptions, verbose,
force_download)`.  The option check in the source fires only when the
database is compound or drug. -/
def keggapi_find (env : Env) (store : Store) (database query : String)
    (option : Option String) (want_descriptions verbose force_download : Bool) :
    Except KErr (List String ⊕ List String × List String) × Store × List Event :=
  if database ∉ db_categories then
    (.error (.keyError database), store, [])
  else if (database = "compound" ∨ database = "drug") ∧
      option.isSome = true ∧ optMem option find_options = false then
    (.error (.keyError database), store, [])
  else
    let q := push_backslash (some query)
    let p := push_backslash option
    let url := "http://rest.kegg.jp/find/" ++ database ++ q.2 ++ p.2
    match p.1 with
    | none => (.error .typeError, store, [])
    | some o =>
      fetch_and_parse env store url (database ++ "_" ++ query ++ "_" ++ o)
        want_descriptions verbose force_download
        "different item and description lengths"

/-- The body of `keggapi_get` after its option validation.  The
`json` and `image` branches of the source do not pass
`force_download` on; the `kgml` option matches no branch and the
trailing code reads an unbound variable `text`. -/
def keggapi_get_go (env : Env) (store : Store) (dbentry : String)
    (option : Option String) (verbose force_download : Bool) :
    Except KErr String × Store × List Event :=
  let p := push_backslash option
  let url := "http://rest.kegg.jp/get/" ++ dbentry ++ p.2
  let opt2 := match p.1 with | none => "description" | some o => o
  let filename := dbentry ++ "_" ++ opt2
  if opt2 = "description" then
    match download_textfile env store url filename force_download false with
    | (.error e, s, ev) => (.error e, s, ev)
    | (.ok infos, s, ev) =>
      let infos := if verbose = false then
          joinNL (((pySplitlines infos).drop 1).take 3)
        else infos
      (.ok infos, s, ev)
  else if opt2 = "json" then
    download_json env store url filename false
  else if opt2 = "mol" ∨ opt2 = "kcf" ∨ opt2 = "conf" ∨ opt2 = "aaseq" ∨ opt2 = "ntseq" then
    download_textfile env store url filename force_download verbose
  else if opt2 = "image" then
    download_pic env store url filename false
  else
    (.error (.nameError "text"), store, [])

/-- `keggapi_get(dbentry, option, want_descriptions, verbose,
force_download)`. -/
def keggapi_get (env : Env) (store : Store) (dbentry : String)
    (option : Option String) (want_descriptions verbose force_download : Bool) :
    Except KErr String × Store × List Event :=
  match option with
  | some o =>
    if o ∈ get_options then
      keggapi_get_go env store dbentry (some o) verbose force_download
    else
      (.error (.keyError o), store, [])
  | none => keggapi_get_go env store dbentry none verbose force_download

/-- `keggapi_link(source, target, verbose, force_download)`: only the
target is validated. -/
def keggapi_link (env : Env) (store : Store) (source target : String)
    (verbose force_download : Bool) :
    Except KErr (List String × List String) × Store × List Event :=
  if target ∉ db_categories then
    (.error (.keyError target), store, [])
  else
    let url := "http://rest.kegg.jp/link/" ++ target ++ "/" ++ source
    let filename := target ++ "_" ++ source ++ "_link"
    match download_textfile env store url filename force_download verbose with
    | (.error e, s, ev) => (.error e, s, ev)
    | (.ok text, s, ev) =>
      match process_request_text text true with
      | .ok (.inr (l1, l2)) => (.ok (l1, l2), s, ev)
      | .ok (.inl _) => (.error .typeError, s, ev)
      | .error e => (.error e, s, ev)

-- ===========================================================================
-- Derived notions used by the statements
-- ===========================================================================

/-- Is the outcome a raised `KEGGKeyError`? -/
def isKeyErr {α : Type} : Except KErr α → Bool
  | .error (.keyError _) => true
  | _ => false

/-- The text body `download_textfile` ends up checking: the network
body when it fetches, the cached body when it reads. -/
def textBody (env : Env) (store : Store) (url filename : String)
    (force_download : Bool) : Option String :=
  if (store.get filename).isNone || force_download then env.net url
  else store.get filename

-- ===========================================================================
-- Concrete environments used by counterexamples and witnesses
-- ===========================================================================

/-- A network that answers every text request with `body`. -/
def envText (body : String) : Env :=
  ⟨fun _ => some body, fun _ => "", fun _ => none, fun _ => none⟩

/-- A network serving PNG bytes that sniff as png and decode to
themselves. -/
def envPng : Env :=
  ⟨fun _ => none, fun _ => "PNGBYTES", fun _ => some "png", fun c => some c⟩

/-- An environment in which every image decode raises. -/
def envBadImg : Env :=
  ⟨fun _ => none, fun _ => "", fun _ => none, fun _ => none⟩

/-- One well-formed line of the KEGG organism listing. -/
def orgText : String := "T01001\thsa\tHomo sapiens (human)\tEukaryotes;Animals\n"

-- ===========================================================================
-- Helper lemmas
-- ===========================================================================

lemma isKeyErr_download_textfile (env : Env) (store : Store) (url filename : String)
    (f v : Bool) :
    isKeyErr (download_textfile env store url filename f v).1 = false := by
  unfold download_textfile
  split
  · rcases hnet : env.net url with _ | t
    · simp [hnet, isKeyErr]
    · by_cases ht : t = "\n" <;> simp [hnet, ht, isKeyErr]
  · by_cases ht : (store.get filename).getD "" = "\n" <;> simp [ht, isKeyErr]

lemma download_textfile_events_ne_nil (env : Env) (store : Store) (url filename : String)
    (f v : Bool) :
    (download_textfile env store url filename f v).2.2 ≠ [] := by
  unfold download_textfile
  split
  · cases env.net url <;> simp
  · simp

lemma get_organism_codes_events (env : Env) (store : Store) :
    (get_organism_codes env store).2.2 ≠ [] := by
  unfold get_organism_codes
  rcases h : download_textfile env store "http://rest.kegg.jp/list/organism"
      "organism_code_list" false false with ⟨r, s, ev⟩
  have hne : ev ≠ [] := by
    have := download_textfile_events_ne_nil env store "http://rest.kegg.jp/list/organism"
      "organism_code_list" false false
    rw [h] at this
    exact this
  cases r with
  | error e => simpa using hne
  | ok text =>
    rcases hp : parse_org (pySplitlines text) with _ | codes <;> simp [hp] <;> exact hne

lemma isKeyErr_process_request_text (text : String) (wd : Bool) :
    isKeyErr (process_request_text text wd) = false := by
  unfold process_request_text
  rcases h : collectPairs (pySplitlines text) with _ | ⟨items, descrs⟩
  · rfl
  · cases wd <;> rfl

lemma isKeyErr_fetch_and_parse (env : Env) (store : Store) (url filename : String)
    (wd v f : Bool) (msg : String) :
    isKeyErr (fetch_and_parse env store url filename wd v f msg).1 = false := by
  unfold fetch_and_parse
  have hnk := isKeyErr_download_textfile env store url filename f v
  split
  next e s ev heq =>
    rw [heq] at hnk
    cases e
    case keyError k => simp [isKeyErr] at hnk
    all_goals rfl
  next text s ev heq =>
    have hq := isKeyErr_process_request_text text wd
    split
    next e hp =>
      rw [hp] at hq
      exact hq
    next items hp => rfl
    next items descrs hp => split <;> rfl

lemma Store.get_set_self (s : Store) (f v : String) : (s.set f v).get f = some v := by
  simp [Store.set, Store.get]

lemma Store.get_set_ne (s : Store) (f g v : String) (h : ¬ f = g) :
    (s.set f v).get g = s.get g := by
  simp [Store.set, Store.get, h]

lemma Store.del_set_self (s : Store) (f b : String) : (s.set f b).del f = s.del f := by
  simp [Store.set, Store.del, List.filter_cons]

lemma Store.get_del_of_get_none (s : Store) (f g : String) (h : s.get g = none) :
    (s.del f).get g = none := by
  induction s with
  | nil => rfl
  | cons kv rest ih =>
    obtain ⟨k, v⟩ := kv
    have hkg : ¬ k = g := by
      intro hkg
      rw [Store.get, if_pos hkg] at h
      cases h
    rw [Store.get, if_neg hkg] at h
    simp only [Store.del, List.filter_cons]
    by_cases hkf : (k != f) = true
    · rw [if_pos hkf]
      rw [Store.get, if_neg hkg]
      have := ih h
      simpa [Store.del] using this
    · rw [if_neg hkf]
      have := ih h
      simpa [Store.del] using this

lemma data_append (s t : String) : (s ++ t).data = s.data ++ t.data := rfl

lemma string_ne_of_data_ne (s t : String) (h : ¬ s.data = t.data) : ¬ s = t :=
  fun he => h (congrArg String.data he)

lemma append_png_ne_gif (s : String) : ¬ s ++ ".png" = s ++ ".gif" := by
  apply string_ne_of_data_ne
  rw [data_append, data_append]
  intro h
  have h2 := List.append_cancel_left h
  exact absurd h2 (by decide)

-- ===========================================================================
-- C1
-- ===========================================================================

/-- C1: calling the get operation with option "json", force_download
set, and a cached entry present returns the cached content with no
network fetch and an unchanged store, because `keggapi_get` does not
forward `force_download` to `download_json`; this contradicts the
documented meaning of the flag. -/
theorem C1_force_download_ignored_for_json :
    keggapi_get (envText "FRESH") [("hsa:1_json", "CACHED")] "hsa:1" (some "json")
        false true true
      = (.ok "CACHED", [("hsa:1_json", "CACHED")], [Event.fileRead "hsa:1_json"]) := by
  decide

-- ===========================================================================
-- C2
-- ===========================================================================

/-- C2 counterexample: the list operation with an invalid database
downloads the organism-code list over the network before raising
`KEGGKeyError`, so validation does not precede all I/O. -/
theorem C2_counterexample :
    keggapi_list (envText orgText) [] "not-a-real-db" none false false
      = (.error (.keyError "not-a-real-db"),
         [("organism_code_list", orgText)],
         [Event.netFetch "http://rest.kegg.jp/list/organism",
          Event.fileWrite "organism_code_list"]) := by
  decide

-- ===========================================================================
-- C3
-- ===========================================================================

/-- C3 counterexample: the find operation on database "pathway" (not
compound or drug) with option "formula" raises nothing; it downloads
and parses normally. -/
theorem C3_counterexample :
    keggapi_find (envText "K00001\tentry one\n") [] "pathway" "q1" (some "formula")
        false false false
      = (.ok (.inl ["K00001"]),
         [("pathway_q1_formula", "K00001\tentry one\n")],
         [Event.netFetch "http://rest.kegg.jp/find/pathway/q1/formula",
          Event.fileWrite "pathway_q1_formula"]) := by
  decide

-- ===========================================================================
-- C6
-- ===========================================================================

/-- C6: `download_textfile` raises `KEGGInvalidFileContent` exactly
when the text body it settles on (freshly fetched or read from cache)
is a lone newline, and returns any other body unchanged. -/
theorem C6_lone_newline (env : Env) (store : Store) (url filename : String)
    (force_download verbose : Bool) :
    (textBody env store url filename force_download = some "\n" ↔
      (download_textfile env store url filename force_download verbose).1
        = .error (.invalidContent filename "\n"))
    ∧ ∀ t : String, t ≠ "\n" →
        textBody env store url filename force_download = some t →
        (download_textfile env store url filename force_download verbose).1 = .ok t := by
  unfold textBody download_textfile
  cases hb : ((store.get filename).isNone || force_download) with
  | true =>
    simp only [hb]
    cases hnet : env.net url with
    | none => simp
    | some t =>
      by_cases ht : t = "\n"
      · subst ht
        simp
        intro t2 ht2 h2
        exact ht2 h2.symm
      · simp [ht]
  | false =>
    simp only [hb]
    rcases hget : store.get filename with _ | t
    · rw [hget] at hb; simp at hb
    · simp only [hget, Option.getD_some]
      by_cases ht : t = "\n"
      · subst ht
        simp
        intro t2 ht2 h2
        exact ht2 h2.symm
      · simp [ht]

/-- Witness for C6 at a concrete lone-newline fetch and a concrete
normal fetch. -/
theorem C6_witness :
    (download_textfile (envText "\n") [] "u" "f" false false).1
        = .error (.invalidContent "f" "\n")
    ∧ (download_textfile (envText "abc") [] "u" "f" false false).1 = .ok "abc" :=
  ⟨(C6_lone_newline (envText "\n") [] "u" "f" false false).1.mp (by decide),
   (C6_lone_newline (envText "abc") [] "u" "f" false false).2 "abc" (by decide) (by decide)⟩

-- ===========================================================================
-- C8
-- ===========================================================================

/-- C8: option "kgml" passes the get operation's validation, but no
dispatch branch handles it, and the call fails with a `NameError` on
the unbound variable `text`, performing no I/O at all. -/
theorem C8_kgml_reaches_unbound_text (env : Env) (store : Store) (dbentry : String)
    (want_descriptions verbose force_download : Bool) :
    keggapi_get env store dbentry (some "kgml") want_descriptions verbose force_download
      = (.error (.nameError "text"), store, []) := rfl

-- ===========================================================================
-- C10
-- ===========================================================================

/-- C10: when a fresh fetch returns a lone newline, the degenerate
body is written to the cache before `KEGGInvalidFileContent` is
raised, and every later unforced call for the same filename re-raises
the error from the cached file without a network fetch. -/
theorem C10_poisoned_cache (env : Env) (store : Store) (url filename : String)
    (verbose : Bool) (h : store.get filename = none)
    (hnet : env.net url = some "\n") :
    (download_textfile env store url filename false verbose).1
        = .error (.invalidContent filename "\n")
    ∧ (download_textfile env store url filename false verbose).2.1.get filename
        = some "\n"
    ∧ (download_textfile env store url filename false verbose).2.2
        = [Event.netFetch url, Event.fileWrite filename]
    ∧ ∀ (env2 : Env) (url2 : String) (verbose2 : Bool),
        download_textfile env2 (download_textfile env store url filename false verbose).2.1
            url2 filename false verbose2
          = (.error (.invalidContent filename "\n"),
             (download_textfile env store url filename false verbose).2.1,
             [Event.fileRead filename]) := by
  have hfirst : download_textfile env store url filename false verbose
      = (.error (.invalidContent filename "\n"), store.set filename "\n",
         [Event.netFetch url, Event.fileWrite filename]) := by
    unfold download_textfile
    simp [h, hnet]
  refine ⟨by rw [hfirst], ?_, by rw [hfirst], ?_⟩
  · rw [hfirst]
    simp [Store.set, Store.get]
  · intro env2 url2 verbose2
    rw [hfirst]
    unfold download_textfile
    simp [Store.set, Store.get]

/-- Witness for C10 at a concrete empty store and lone-newline
network. -/
theorem C10_witness :
    (download_textfile (envText "\n") [] "u" "f" false false).1
        = .error (.invalidContent "f" "\n")
    ∧ (download_textfile (envText "\n") [] "u" "f" false false).2.1.get "f"
        = some "\n" :=
  ⟨(C10_poisoned_cache (envText "\n") [] "u" "f" false rfl rfl).1,
   (C10_poisoned_cache (envText "\n") [] "u" "f" false rfl rfl).2.1⟩

-- ===========================================================================
-- C2 (amended)
-- ===========================================================================

/-- C2 amended: the find, get and link operations raise `KEGGKeyError`
on a vocabulary violation before performing any I/O (empty event
trace, unchanged store), while the list operation first fetches the
organism-code list (a network or cache access) and only then raises
`KEGGKeyError`; its event trace equals the non-empty organism-fetch
trace. -/
theorem C2_validation_before_io_except_list (env : Env) (store : Store) :
    (∀ (db q : String) (option : Option String) (wd v f : Bool),
        db ∉ db_categories →
        keggapi_find env store db q option wd v f
          = (.error (.keyError db), store, []))
    ∧ (∀ (e o : String) (wd v f : Bool),
        o ∉ get_options →
        keggapi_get env store e (some o) wd v f
          = (.error (.keyError o), store, []))
    ∧ (∀ (src tgt : String) (v f : Bool),
        tgt ∉ db_categories →
        keggapi_link env store src tgt v f
          = (.error (.keyError tgt), store, []))
    ∧ (∀ (db : String) (option : Option String) (wd f : Bool) (codes : List String),
        db ∉ db_categories →
        (get_organism_codes env store).1 = .ok codes →
        (keggapi_list env store db option wd f).1 = .error (.keyError db)
        ∧ (keggapi_list env store db option wd f).2.2
            = (get_organism_codes env store).2.2
        ∧ (keggapi_list env store db option wd f).2.2 ≠ []) := by
  refine ⟨?_, ?_, ?_, ?_⟩
  · intro db q option wd v f hdb
    unfold keggapi_find
    rw [if_pos hdb]
  · intro e o wd v f ho
    simp [keggapi_get, ho]
  · intro src tgt v f ht
    unfold keggapi_link
    rw [if_pos ht]
  · intro db option wd f codes hdb horg
    have hev := get_organism_codes_events env store
    rcases hE : get_organism_codes env store with ⟨r, s1, ev1⟩
    rw [hE] at horg hev
    simp only at horg hev
    subst horg
    have hcore : keggapi_list_core env s1 codes db option wd f
        = (.error (.keyError db), s1, []) := by
      unfold keggapi_list_core
      rw [if_pos hdb]
    simp [keggapi_list, hE, hcore, hev]

/-- Witness for C2: find rejects an invalid database with no I/O,
while list with the same invalid database still produces a non-empty
I/O trace. -/
theorem C2_witness :
    keggapi_find (envText orgText) [] "nodb" "q" none false false false
      = (.error (.keyError "nodb"), [], [])
    ∧ (keggapi_list (envText orgText) [] "nodb" none false false).2.2 ≠ [] := by
  have h := C2_validation_before_io_except_list (envText orgText) []
  exact ⟨h.1 "nodb" "q" none false false false (by decide),
         (h.2.2.2 "nodb" none false false ["hsa"] (by decide) (by decide)).2.2⟩

-- ===========================================================================
-- C3 (amended)
-- ===========================================================================

/-- C3 amended: the find operation's option check applies only when
the database is "compound" or "drug" — for those, a supplied option
outside the three permitted names raises `KEGGKeyError` before any
I/O; for every other valid database a supplied option is not
validated and the call never raises `KEGGKeyError`. -/
theorem C3_find_option_check_scope (env : Env) (store : Store) :
    (∀ (db q o : String) (wd v f : Bool),
        (db = "compound" ∨ db = "drug") → o ∉ find_options →
        keggapi_find env store db q (some o) wd v f
          = (.error (.keyError db), store, []))
    ∧ (∀ (db q o : String) (wd v f : Bool),
        db ∈ db_categories → ¬ db = "compound" → ¬ db = "drug" →
        isKeyErr (keggapi_find env store db q (some o) wd v f).1 = false) := by
  constructor
  · intro db q o wd v f hdb ho
    unfold keggapi_find
    rw [if_neg ?h1, if_pos ?h2]
    case h1 => rcases hdb with h | h <;> subst h <;> decide
    case h2 =>
      refine ⟨hdb, rfl, ?_⟩
      simp [optMem, ho]
  · intro db q o wd v f h1 h2 h3
    unfold keggapi_find
    rw [if_neg (by simpa using h1), if_neg ?hc]
    case hc =>
      rintro ⟨hcd, -, -⟩
      rcases hcd with h | h
      · exact h2 h
      · exact h3 h
    exact isKeyErr_fetch_and_parse _ _ _ _ _ _ _ _

/-- Witness for C3: compound with a bogus option is rejected;
pathway with option "formula" is not rejected. -/
theorem C3_witness :
    keggapi_find (envText "x") [] "compound" "q" (some "bogus") false false false
      = (.error (.keyError "compound"), [], [])
    ∧ isKeyErr (keggapi_find (envText "K1\td\n") [] "pathway" "q" (some "formula")
        false false false).1 = false := by
  refine ⟨?_, ?_⟩
  · exact (C3_find_option_check_scope (envText "x") []).1 "compound" "q" "bogus"
      false false false (Or.inl rfl) (by decide)
  · exact (C3_find_option_check_scope (envText "K1\td\n") []).2 "pathway" "q" "formula"
      false false false (by decide) (by decide) (by decide)

-- ===========================================================================
-- C4
-- ===========================================================================

/-- C4: list validation — an unknown database raises `KEGGKeyError`;
option "xl" with database "pathway" raises `KEGGKeyError`; database
"brite" with option "xl" passes validation (the call never raises
`KEGGKeyError`). -/
theorem C4_list_validation (env : Env) (store : Store) (codes : List String)
    (horg : (get_organism_codes env store).1 = .ok codes)
    (hxl : "xl" ∉ codes) :
    (keggapi_list env store "not-a-real-db" none false false).1
        = .error (.keyError "not-a-real-db")
    ∧ (keggapi_list env store "pathway" (some "xl") false false).1
        = .error (.keyError "pathway")
    ∧ isKeyErr (keggapi_list env store "brite" (some "xl") false false).1 = false := by
  rcases hE : get_organism_codes env store with ⟨r, s1, ev1⟩
  rw [hE] at horg
  simp only at horg
  subst horg
  refine ⟨?_, ?_, ?_⟩
  · have hcore : keggapi_list_core env s1 codes "not-a-real-db" none false false
        = (.error (.keyError "not-a-real-db"), s1, []) := by
      unfold keggapi_list_core
      rw [if_pos (by decide)]
    simp [keggapi_list, hE, hcore]
  · have hcore : keggapi_list_core env s1 codes "pathway" (some "xl") false false
        = (.error (.keyError "pathway"), s1, []) := by
      unfold keggapi_list_core
      rw [if_neg (by decide), if_pos (by decide)]
    simp [keggapi_list, hE, hcore]
  · have hcore : isKeyErr (keggapi_list_core env s1 codes "brite" (some "xl")
        false false).1 = false := by
      unfold keggapi_list_core
      rw [if_neg (by decide), if_neg (by decide), if_neg ?hc]
      case hc => simp [optMem, hxl]
      exact isKeyErr_fetch_and_parse _ _ _ _ _ _ _ _
    rcases hC : keggapi_list_core env s1 codes "brite" (some "xl") false false
      with ⟨r2, s2, ev2⟩
    rw [hC] at hcore
    simpa [keggapi_list, hE, hC] using hcore

/-- Witness for C4 with a concrete organism listing whose only code is
"hsa". -/
theorem C4_witness :
    (keggapi_list (envText orgText) [] "not-a-real-db" none false false).1
        = .error (.keyError "not-a-real-db")
    ∧ isKeyErr (keggapi_list (envText orgText) [] "brite" (some "xl") false false).1
        = false := by
  have h := C4_list_validation (envText orgText) [] ["hsa"] (by decide) (by decide)
  exact ⟨h.1, h.2.2⟩

-- ===========================================================================
-- C7
-- ===========================================================================

/-- C7: with no cached variant, a download whose bytes do not sniff as
gif or png fails with the assertion error; bytes sniffing as png are
stored under the filename with ".png" appended, and a second unforced
call returns the decoded image by reading that file, with no network
fetch. -/
theorem C7_image_sniff_and_cache (env : Env) (store : Store) (url filename img : String)
    (hg : store.get (filename ++ ".gif") = none)
    (hp : store.get (filename ++ ".png") = none) :
    (env.sniff (env.netBytes url) = none →
      (download_pic env store url filename false).1
        = .error (.assertionError "Image format is wrong"))
    ∧ (∀ fmt, env.sniff (env.netBytes url) = some fmt → ¬ fmt = "gif" → ¬ fmt = "png" →
        (download_pic env store url filename false).1
          = .error (.assertionError "Image format is wrong"))
    ∧ (env.sniff (env.netBytes url) = some "png" →
        (download_pic env store url filename false).2.1.get (filename ++ ".png")
          = some (env.netBytes url)
        ∧ (env.imread (env.netBytes url) = some img →
            download_pic env (download_pic env store url filename false).2.1 url filename false
              = (.ok img, (download_pic env store url filename false).2.1,
                 [Event.fileRead (filename ++ ".png")]))) := by
  refine ⟨?_, ?_, ?_⟩
  · intro hs
    unfold download_pic
    simp [hg, hp, hs]
  · intro fmt hs hf1 hf2
    unfold download_pic
    simp only [hg, hp, Option.isNone_none, Bool.and_self, Bool.or_false, if_true, hs]
    split
    · next h => rw [Option.some.injEq] at h; exact absurd h hf1
    · next h => rw [Option.some.injEq] at h; exact absurd h hf2
    · rfl
  · intro hs
    have hfresh : download_pic env store url filename false
        = (.ok (env.netBytes url),
           ((store.set "tmp_img" (env.netBytes url)).del "tmp_img").set
             (filename ++ ".png") (env.netBytes url),
           [Event.netFetch url, Event.fileWrite "tmp_img", Event.fileRead "tmp_img",
            Event.fileWrite (filename ++ ".png")]) := by
      unfold download_pic
      simp [hg, hp, hs]
    have hget_png : (download_pic env store url filename false).2.1.get
        (filename ++ ".png") = some (env.netBytes url) := by
      rw [hfresh]
      exact Store.get_set_self _ _ _
    refine ⟨hget_png, ?_⟩
    intro him
    have hget_gif : (download_pic env store url filename false).2.1.get
        (filename ++ ".gif") = none := by
      rw [hfresh]
      rw [Store.get_set_ne _ _ _ _ (append_png_ne_gif filename)]
      rw [Store.del_set_self]
      exact Store.get_del_of_get_none store _ _ hg
    rcases hS : (download_pic env store url filename false).2.1 with _ | _
    all_goals
      rw [hS] at hget_png hget_gif
      unfold download_pic
      simp [hget_png, hget_gif, try_imread, him]

/-- Witness for C7: concrete png environment, empty cache. -/
theorem C7_witness :
    (download_pic envPng [] "u" "pic" false).2.1.get ("pic" ++ ".png") = some "PNGBYTES"
    ∧ download_pic envPng (download_pic envPng [] "u" "pic" false).2.1 "u" "pic" false
        = (.ok "PNGBYTES", (download_pic envPng [] "u" "pic" false).2.1,
           [Event.fileRead ("pic" ++ ".png")]) := by
  have h := (C7_image_sniff_and_cache envPng [] "u" "pic" "PNGBYTES" rfl rfl).2.2 rfl
  exact ⟨h.1, h.2 rfl⟩

-- ===========================================================================
-- C9
-- ===========================================================================

/-- C9: in the cached-image branch (unforced, at least one variant
present), every read failure is swallowed — a successful png read
returns its image even when the gif read raised — and when neither
variant reads successfully the call fails with `NameError` on the
unbound variable `img`, not with a file-not-found error. -/
theorem C9_bare_except_nameerror (env : Env) (store : Store) (url filename : String)
    (hpresent : ((store.get (filename ++ ".gif")).isNone &&
        (store.get (filename ++ ".png")).isNone) = false) :
    (try_imread env store (filename ++ ".png") = none →
     try_imread env store (filename ++ ".gif") = none →
     (download_pic env store url filename false).1 = .error (.nameError "img"))
    ∧ ∀ img : String, try_imread env store (filename ++ ".png") = some img →
        (download_pic env store url filename false).1 = .ok img := by
  constructor
  · intro h1 h2
    unfold download_pic
    simp [hpresent, h1, h2]
  · intro img h1
    unfold download_pic
    simp [hpresent, h1]

/-- Witness for C9: both variants present but undecodable. -/
theorem C9_witness :
    (download_pic envBadImg [("a.gif", "X"), ("a.png", "Y")] "u" "a" false).1
      = .error (.nameError "img") := by
  exact (C9_bare_except_nameerror envBadImg [("a.gif", "X"), ("a.png", "Y")] "u" "a"
    (by decide)).1 (by decide) (by decide)

-- ===========================================================================
-- C5: parser round trip and order preservation
-- ===========================================================================

/-- Head of a char list is absent or not whitespace. -/
def headOk : List Char → Bool
  | [] => true
  | x :: _ => !isSpaceChar x

/-- A field that survives a parse round trip: non-empty, free of tab
and of every line-boundary character, and not starting or ending with
whitespace. -/
def cleanField (l : List Char) : Bool :=
  !l.isEmpty && l.all (fun ch => ch != '\t' && !isLineBreak ch) && headOk l && headOk l.reverse

/-- One `item\tdescription` line. -/
def mkLine (p : List Char × List Char) : List Char :=
  p.1 ++ '\t' :: p.2

/-- Newline-joined lines, with no trailing newline. -/
def mkText : List (List Char × List Char) → List Char
  | [] => []
  | [p] => mkLine p
  | p :: ps => mkLine p ++ '\n' :: mkText ps

lemma splitOnChar_no_sep (c : Char) (l : List Char) (h : c ∉ l) :
    splitOnChar c l = [l] := by
  induction l with
  | nil => rfl
  | cons x xs ih =>
    simp only [List.mem_cons, not_or] at h
    simp only [splitOnChar]
    rw [if_neg (Ne.symm h.1), ih h.2]

lemma splitOnChar_append (c : Char) (l₁ l₂ : List Char) (h : c ∉ l₁) :
    splitOnChar c (l₁ ++ c :: l₂) = l₁ :: splitOnChar c l₂ := by
  induction l₁ with
  | nil => simp [splitOnChar]
  | cons x xs ih =>
    simp only [List.mem_cons, not_or] at h
    simp only [List.cons_append, splitOnChar]
    rw [if_neg (Ne.symm h.1)]
    rw [show xs.append (c :: l₂) = xs ++ (c :: l₂) from rfl, ih h.2]

lemma dropWhile_of_headOk (l : List Char) (h : headOk l = true) :
    l.dropWhile isSpaceChar = l := by
  cases l with
  | nil => rfl
  | cons x xs =>
    simp only [headOk, Bool.not_eq_true'] at h
    simp [List.dropWhile_cons, h]

lemma stripList_of_headOk (l : List Char) (h1 : headOk l = true)
    (h2 : headOk l.reverse = true) : stripList l = l := by
  unfold stripList
  rw [dropWhile_of_headOk l h1, dropWhile_of_headOk l.reverse h2, List.reverse_reverse]

lemma cleanField_split (l : List Char) (h : cleanField l = true) :
    l ≠ [] ∧ '\t' ∉ l ∧ (∀ c ∈ l, isLineBreak c = false)
      ∧ headOk l = true ∧ headOk l.reverse = true := by
  simp only [cleanField, Bool.and_eq_true, List.all_eq_true, Bool.and_eq_true,
    bne_iff_ne, ne_eq, Bool.not_eq_true', List.isEmpty_eq_false] at h
  obtain ⟨⟨⟨hne, hall⟩, hh⟩, hr⟩ := h
  refine ⟨hne, ?_, ?_, hh, hr⟩
  · intro hmem
    exact (hall '\t' hmem).1 rfl
  · intro c hc
    exact (hall c hc).2

lemma headOk_mkLine (p : List Char × List Char) (h1 : cleanField p.1 = true) :
    headOk (mkLine p) = true := by
  obtain ⟨hne, -, -, hh, -⟩ := cleanField_split p.1 h1
  rcases hl : p.1 with _ | ⟨x, xs⟩
  · exact absurd hl hne
  · rw [hl] at hh
    simp only [mkLine, hl, List.cons_append]
    simpa [headOk] using hh

lemma headOk_reverse_mkLine (p : List Char × List Char) (h2 : cleanField p.2 = true) :
    headOk (mkLine p).reverse = true := by
  obtain ⟨hne, -, -, -, hr⟩ := cleanField_split p.2 h2
  rcases hl : p.2.reverse with _ | ⟨y, ys⟩
  · exact absurd (List.reverse_eq_nil_iff.mp hl) hne
  · rw [hl] at hr
    simp only [mkLine, List.reverse_append, List.reverse_cons, hl]
    simpa [headOk] using hr

lemma mkLine_ne_nil (p : List Char × List Char) : mkLine p ≠ [] := by
  rcases h : p.1 with _ | ⟨x, xs⟩ <;> simp [mkLine, h]

lemma noBreak_mkLine {p : List Char × List Char} (h1 : cleanField p.1 = true)
    (h2 : cleanField p.2 = true) : ∀ c ∈ mkLine p, isLineBreak c = false := by
  have hb1 := (cleanField_split p.1 h1).2.2.1
  have hb2 := (cleanField_split p.2 h2).2.2.1
  intro c hc
  rcases List.mem_append.mp hc with h | h
  · exact hb1 c h
  · rcases List.mem_cons.mp h with h | h
    · subst h; decide
    · exact hb2 c h

lemma split2_mkLine (p : List Char × List Char) (h1 : cleanField p.1 = true)
    (h2 : cleanField p.2 = true) :
    split2 (⟨mkLine p⟩ : String) = some ((⟨p.1⟩ : String), (⟨p.2⟩ : String)) := by
  unfold split2
  have hdata : (⟨mkLine p⟩ : String).data = mkLine p := rfl
  rw [hdata]
  rw [stripList_of_headOk _ (headOk_mkLine p h1) (headOk_reverse_mkLine p h2)]
  unfold mkLine
  rw [splitOnChar_append _ _ _ (cleanField_split p.1 h1).2.1]
  rw [splitOnChar_no_sep _ _ (cleanField_split p.2 h2).2.1]

lemma splitLinesChars_no_break (l : List Char) (hne : l ≠ [])
    (h : ∀ c ∈ l, isLineBreak c = false) :
    splitLinesChars l = [l] := by
  induction l with
  | nil => exact absurd rfl hne
  | cons x xs ih =>
    cases xs with
    | nil =>
      simp only [splitLinesChars]
      rw [if_neg (by simp [h x (by simp)])]
    | cons y ys =>
      simp only [splitLinesChars]
      rw [if_neg (by simp [h x (by simp)])]
      rw [ih (by simp) (fun c hc => h c (List.mem_cons_of_mem x hc))]

lemma splitLinesChars_nl_cons (l : List Char) :
    splitLinesChars ('\n' :: l) = [] :: splitLinesChars l := by
  cases l with
  | nil => rfl
  | cons z zs =>
    simp only [splitLinesChars]
    rw [if_pos (by decide), if_neg (fun hcon => absurd hcon.1 (by decide))]

lemma splitLinesChars_append (l₁ l₂ : List Char)
    (h : ∀ c ∈ l₁, isLineBreak c = false) :
    splitLinesChars (l₁ ++ '\n' :: l₂) = l₁ :: splitLinesChars l₂ := by
  induction l₁ with
  | nil => simpa using splitLinesChars_nl_cons l₂
  | cons x xs ih =>
    have hx : isLineBreak x = false := h x (by simp)
    cases xs with
    | nil =>
      simp only [List.cons_append, List.nil_append, splitLinesChars]
      rw [if_neg (by simp [hx])]
      rw [splitLinesChars_nl_cons l₂]
    | cons y ys =>
      have ih2 := ih (fun c hc => h c (List.mem_cons_of_mem x hc))
      simp only [List.cons_append] at ih2
      simp only [List.cons_append, splitLinesChars]
      rw [if_neg (by simp [hx])]
      rw [show splitLinesChars (y :: ys.append ('\n' :: l₂))
            = (y :: ys) :: splitLinesChars l₂ from ih2]

lemma splitLinesChars_mkText (ps : List (List Char × List Char)) (hne : ps ≠ [])
    (h : ∀ p ∈ ps, ∀ c ∈ mkLine p, isLineBreak c = false) :
    splitLinesChars (mkText ps) = ps.map mkLine := by
  induction ps with
  | nil => exact absurd rfl hne
  | cons p ps ih =>
    cases ps with
    | nil =>
      simp only [mkText]
      rw [splitLinesChars_no_break _ (mkLine_ne_nil p) (h p (by simp))]
      rfl
    | cons q qs =>
      simp only [mkText]
      rw [splitLinesChars_append _ _ (h p (by simp))]
      rw [ih (by simp) (fun r hr => h r (List.mem_cons_of_mem p hr))]
      rfl

lemma pySplitlines_mkText (ps : List (List Char × List Char))
    (h : ∀ p ∈ ps, cleanField p.1 = true ∧ cleanField p.2 = true) :
    pySplitlines (⟨mkText ps⟩ : String)
      = ps.map (fun p => (⟨mkLine p⟩ : String)) := by
  cases hps : ps with
  | nil => rfl
  | cons p rest =>
    subst hps
    unfold pySplitlines
    rw [show (⟨mkText (p :: rest)⟩ : String).data = mkText (p :: rest) from rfl]
    rw [splitLinesChars_mkText _ (by simp)
      (fun r hr => noBreak_mkLine (h r hr).1 (h r hr).2)]
    rw [List.map_map]
    rfl

lemma collectPairs_map (ps : List (List Char × List Char))
    (h : ∀ p ∈ ps, cleanField p.1 = true ∧ cleanField p.2 = true) :
    collectPairs (ps.map (fun p => (⟨mkLine p⟩ : String)))
      = some (ps.map (fun p => (⟨p.1⟩ : String)), ps.map (fun p => (⟨p.2⟩ : String))) := by
  induction ps with
  | nil => rfl
  | cons p rest ih =>
    simp only [List.map_cons, collectPairs]
    rw [split2_mkLine p (h p (by simp)).1 (h p (by simp)).2]
    rw [ih (fun r hr => h r (List.mem_cons_of_mem p hr))]

/-- C5: the parser round-trips the documented three-line example, and
in general, for every list of clean item/description fields joined as
tab-separated lines, parsing returns the items (and, when asked, the
descriptions) in exactly the order of the lines. -/
theorem C5_parse_round_trip :
    (process_request_text "a\tx\nb\ty\nc\tz" true
        = .ok (.inr (["a", "b", "c"], ["x", "y", "z"]))
      ∧ process_request_text "a\tx\nb\ty\nc\tz" false
        = .ok (.inl ["a", "b", "c"]))
    ∧ ∀ ps : List (List Char × List Char),
        (∀ p ∈ ps, cleanField p.1 = true ∧ cleanField p.2 = true) →
        process_request_text (⟨mkText ps⟩ : String) true
          = .ok (.inr (ps.map (fun p => (⟨p.1⟩ : String)),
                       ps.map (fun p => (⟨p.2⟩ : String))))
        ∧ process_request_text (⟨mkText ps⟩ : String) false
          = .ok (.inl (ps.map (fun p => (⟨p.1⟩ : String)))) := by
  refine ⟨⟨by decide, by decide⟩, ?_⟩
  intro ps h
  unfold process_request_text
  rw [pySplitlines_mkText ps h, collectPairs_map ps h]
  exact ⟨rfl, rfl⟩

/-- Witness for C5's general part at a concrete one-line input. -/
theorem C5_witness :
    (∀ p ∈ [((['k'], ['v']) : List Char × List Char)],
        cleanField p.1 = true ∧ cleanField p.2 = true)
    ∧ process_request_text (⟨mkText [(['k'], ['v'])]⟩ : String) true
        = .ok (.inr (["k"], ["v"])) := by
  refine ⟨by decide, ?_⟩
  exact (C5_parse_round_trip.2 [(['k'], ['v'])] (by decide)).1
